import Mathlib

/-!
Shallow embedding of the direction-management logic of the obsidian-rtl-management
plugin: the text-direction classifier of `src/rtl-text-detector.js` and the
setting-resolution, override, observer-bookkeeping and debounce logic of the main
plugin file.  JavaScript strings are modelled as Lean `String`/`List Char`
(sequences of Unicode scalar values); machine details that cannot influence the
verified properties (UTF-16 surrogate indexing, floating-point division in the
majority vote) are noted at the definition they concern.
-/

set_option autoImplicit false

/-- Result type of `getBlockDirection`: the JS function returns one of the two
string literals, modelled as a two-constructor type. -/
inductive Dir where
  | ltr
  | rtl
deriving DecidableEq, Repr

/-- The `DirectionSetting` TS union type: one of the strings `ltr`, `rtl`, `auto`. -/
inductive DirectionSetting where
  | ltr
  | rtl
  | auto
deriving DecidableEq, Repr

/-- Embeds a classifier result into the setting type, as the JS code does when it
stores the detected direction string into `data-effective-direction`. -/
def dirToSetting : Dir → DirectionSetting
  | Dir.ltr => DirectionSetting.ltr
  | Dir.rtl => DirectionSetting.rtl

/-- The character class of the JS `\s` escape (and of `String.prototype.trim`):
ASCII whitespace, NBSP, Ogham space, the U+2000 block, line/paragraph separators,
narrow NBSP, medium mathematical space, ideographic space, BOM. -/
def jsWhitespace (c : Char) : Bool :=
  let v := c.toNat
  v = 0x9 || v = 0xA || v = 0xB || v = 0xC || v = 0xD || v = 0x20 ||
  v = 0xA0 || v = 0x1680 || (0x2000 ≤ v && v ≤ 0x200A) ||
  v = 0x2028 || v = 0x2029 || v = 0x202F || v = 0x205F || v = 0x3000 || v = 0xFEFF

/-- The character class of the JS `\d` escape: the ASCII digits. -/
def isJsDigit (c : Char) : Bool :=
  0x30 ≤ c.toNat && c.toNat ≤ 0x39

/-- The character class `[a-zA-Z]` used by the first-strong scan of
`getBlockDirection`. -/
def isBasicLatinLetter (c : Char) : Bool :=
  (0x41 ≤ c.toNat && c.toNat ≤ 0x5A) || (0x61 ≤ c.toNat && c.toNat ≤ 0x7A)

/-- List-level prefix test (used to model anchored regex matching and
`String.prototype.startsWith`). -/
def hasPrefixL : List Char → List Char → Bool
  | [], _ => true
  | _ :: _, [] => false
  | p :: ps, c :: cs => decide (p = c) && hasPrefixL ps cs

/-- List-level infix test: `hasInfixL pat s` holds iff `pat` occurs as a
contiguous substring of `s`.  This is the semantics of `RegExp.prototype.test`
for a regex consisting only of literal characters. -/
def hasInfixL (pat : List Char) : List Char → Bool
  | [] => pat.isEmpty
  | c :: cs => hasPrefixL pat (c :: cs) || hasInfixL pat cs

/-- The `RTL_RANGES` array of `src/rtl-text-detector.js` lines 5-13.  Each entry
is written in the source as e.g. `/֐-׿/` — with no character-class
brackets — so each regex is a literal three-character pattern: a block-start code
point, the ASCII hyphen, and a block-end code point. -/
def RTL_RANGES : List (List Char) :=
  [[Char.ofNat 0x0590, '-', Char.ofNat 0x05FF],
   [Char.ofNat 0x0600, '-', Char.ofNat 0x06FF],
   [Char.ofNat 0x0750, '-', Char.ofNat 0x077F],
   [Char.ofNat 0x08A0, '-', Char.ofNat 0x08FF],
   [Char.ofNat 0xFB50, '-', Char.ofNat 0xFDFF],
   [Char.ofNat 0xFE70, '-', Char.ofNat 0xFEFF]]

/-- `isRtlChar` of `src/rtl-text-detector.js` lines 20-30: requires the argument
to be a (non-empty) string of length exactly one, then tests each `RTL_RANGES`
regex against it.  The falsiness guard `!char` rejects the empty string, which is
subsumed by the length test. -/
def isRtlChar (char : List Char) : Bool :=
  decide (char.length = 1) && RTL_RANGES.any (fun range => hasInfixL range char)

/-- The Unicode general-category tables consulted by the `\p` escapes of the host
regex engine.  `punctSymSepCtrl` is the combined class `P ∪ S ∪ Z ∪ C` used by the
neutral-skip step; `letter` is `\p L` used by the majority-vote fallback.  The
universal theorems below are parametric in this structure; only concrete
evaluations fix an instance. -/
structure CharClasses where
  punctSymSepCtrl : Char → Bool
  letter : Char → Bool

/-- Concrete general-category tables, exact on the code points exercised in this
development: the ASCII range, the Hebrew block, the primary Arabic letter range,
and Latin-1/Latin-Extended letters; all remaining non-ASCII code points are
classified coarsely as non-letters. -/
def jsLetter (c : Char) : Bool :=
  let v := c.toNat
  isBasicLatinLetter c ||
  (0x5D0 ≤ v && v ≤ 0x5EA) || (0x5EF ≤ v && v ≤ 0x5F2) ||
  (0x620 ≤ v && v ≤ 0x64A) ||
  (0xC0 ≤ v && v ≤ 0x2AF && v ≠ 0xD7 && v ≠ 0xF7)

/-- Combined `P ∪ S ∪ Z ∪ C` table matching `jsLetter`: within ASCII everything
that is not a letter, a digit or whitespace belongs to it; outside ASCII it is
the complement of the letter ranges of `jsLetter`. -/
def jsPunctSymSepCtrl (c : Char) : Bool :=
  if c.toNat ≤ 0x7F then
    !(isBasicLatinLetter c || isJsDigit c || jsWhitespace c)
  else
    !(jsLetter c || jsWhitespace c)

/-- Concrete instance of the category tables. -/
def jsCharClasses : CharClasses :=
  { punctSymSepCtrl := jsPunctSymSepCtrl, letter := jsLetter }

/-- Consumes one expected character from the front of the text, failing
otherwise; building block for the anchored-prefix regex parsers. -/
def expectChar (c : Char) : List Char → Option (List Char)
  | x :: rest => if x = c then some rest else none
  | [] => none

/-- Core of the task-list regex of line 53, anchored at the string start:
leading whitespace, a hyphen, whitespace, an opening bracket, whitespace, an
optional `x` or `X`, whitespace, a closing bracket, trailing whitespace.  The
regex is deterministic (each greedy run is over a character set disjoint from the
following literal), so greedy parsing without backtracking is its exact
semantics. -/
def taskMatch (t : List Char) : Option (List Char) := do
  let t1 := t.dropWhile jsWhitespace
  let t2 ← expectChar '-' t1
  let t3 := t2.dropWhile jsWhitespace
  let t4 ← expectChar '[' t3
  let t5 := t4.dropWhile jsWhitespace
  let t6 := match t5 with
            | x :: rest => if x = 'x' ∨ x = 'X' then rest else t5
            | [] => t5
  let t7 := t6.dropWhile jsWhitespace
  let t8 ← expectChar ']' t7
  return t8.dropWhile jsWhitespace

/-- `processedText.replace(taskRegex, '')`: strip the match if the anchored
pattern matches, leave the text unchanged otherwise. -/
def stripTask (t : List Char) : List Char :=
  (taskMatch t).getD t

/-- Core of the bullet-list regex of line 54: leading whitespace, one of `-`,
`*`, `+`, then at least one whitespace character (consumed greedily). -/
def bulletMatch (t : List Char) : Option (List Char) := do
  let t1 := t.dropWhile jsWhitespace
  let t2 ← match t1 with
           | x :: rest => if x = '-' ∨ x = '*' ∨ x = '+' then some rest else none
           | [] => none
  match t2 with
  | x :: rest => if jsWhitespace x then some (rest.dropWhile jsWhitespace) else none
  | [] => none

/-- Replace-with-empty of the bullet-list pattern. -/
def stripBullet (t : List Char) : List Char :=
  (bulletMatch t).getD t

/-- Core of the ordered-list regex of line 55: leading whitespace, one or more
digits, `.` or `)`, then at least one whitespace character. -/
def orderedMatch (t : List Char) : Option (List Char) := do
  let t1 := t.dropWhile jsWhitespace
  let ds := t1.takeWhile isJsDigit
  if ds.isEmpty then none else
  let t2 := t1.dropWhile isJsDigit
  let t3 ← match t2 with
           | x :: rest => if x = '.' ∨ x = ')' then some rest else none
           | [] => none
  match t3 with
  | x :: rest => if jsWhitespace x then some (rest.dropWhile jsWhitespace) else none
  | [] => none

/-- Replace-with-empty of the ordered-list pattern. -/
def stripOrdered (t : List Char) : List Char :=
  (orderedMatch t).getD t

/-- Core of the heading regex of line 56: leading whitespace, between one and six
`#` characters, then at least one whitespace character.  A run of seven or more
`#` can never match (after any permitted number of hashes the next character is
another `#`, not whitespace), so the match requires the whole hash run to have
length 1..6. -/
def headingMatch (t : List Char) : Option (List Char) := do
  let t1 := t.dropWhile jsWhitespace
  let hs := t1.takeWhile (fun c => decide (c = '#'))
  if hs.length = 0 ∨ 6 < hs.length then none else
  let t2 := t1.dropWhile (fun c => decide (c = '#'))
  match t2 with
  | x :: rest => if jsWhitespace x then some (rest.dropWhile jsWhitespace) else none
  | [] => none

/-- Replace-with-empty of the heading pattern. -/
def stripHeading (t : List Char) : List Char :=
  (headingMatch t).getD t

/-- Core of the blockquote regex of line 57: leading whitespace, one or more `>`
characters, trailing whitespace (possibly empty). -/
def blockquoteMatch (t : List Char) : Option (List Char) := do
  let t1 := t.dropWhile jsWhitespace
  let gs := t1.takeWhile (fun c => decide (c = '>'))
  if gs.isEmpty then none else
  return (t1.dropWhile (fun c => decide (c = '>'))).dropWhile jsWhitespace

/-- Replace-with-empty of the blockquote pattern. -/
def stripBlockquote (t : List Char) : List Char :=
  (blockquoteMatch t).getD t

/-- The prefix-removal loop of `getBlockDirection` lines 60-62: each of the five
anchored patterns is applied by `replace` in order, each to the result of the
previous application. -/
def stripMarkdownPrefixes (t : List Char) : List Char :=
  stripBlockquote (stripHeading (stripOrdered (stripBullet (stripTask t))))

/-- `String.prototype.trim`: remove leading and trailing `\s` characters. -/
def trimJs (l : List Char) : List Char :=
  ((l.dropWhile jsWhitespace).reverse.dropWhile jsWhitespace).reverse

/-- Single-character test of the skip regex `[\s\d\p P \p S \p Z \p C]` of line
74: a one-character string matches the starred class iff the character lies in
the class. -/
def isNeutralChar (cc : CharClasses) (c : Char) : Bool :=
  jsWhitespace c || isJsDigit c || cc.punctSymSepCtrl c

/-- The first-strong-character loop of lines 91-103: return `rtl` at the first
character passing `isRtlChar`, `ltr` at the first basic-Latin letter, skip
everything else; `none` when the scanned window is exhausted. -/
def firstStrong : List Char → Option Dir
  | [] => none
  | c :: rest =>
    if isRtlChar [c] then some Dir.rtl
    else if isBasicLatinLetter c then some Dir.ltr
    else firstStrong rest

/-- Steps 4-6 of `getBlockDirection` (lines 83-131), applied to the fully
preprocessed text: the empty-after-processing default, the first-strong scan
over at most 200 characters, and the majority-vote fallback.  The comparison
`rtlCharCount / totalScriptChars > 0.4` is modelled as the exact rational
comparison `2 * total < 5 * rtl`, which agrees with the float comparison on
every count pair reachable here (in particular whenever `rtlCharCount = 0`). -/
def scanDirection (cc : CharClasses) (processedText : List Char) : Dir :=
  if processedText.isEmpty then Dir.ltr
  else
    match firstStrong (processedText.take 200) with
    | some d => d
    | none =>
      if (processedText.filter cc.letter).length = 0 then Dir.ltr
      else if 2 * (processedText.filter cc.letter).length <
              5 * (processedText.filter (fun c => isRtlChar [c])).length then Dir.rtl
      else Dir.ltr

/-- `getBlockDirection` of `src/rtl-text-detector.js` lines 37-132.  The falsy
check `!textBlock` is the empty-string test (the argument is typed as a string);
then the code-fence check, the prefix stripping of lines 60-62, the trim of line
65, the neutral-skip loop of lines 69-80, and the scan of `scanDirection`. -/
def getBlockDirection (cc : CharClasses) (textBlock : String) : Dir :=
  if textBlock.data.isEmpty then Dir.ltr
  else if hasPrefixL ("```".data) textBlock.data then Dir.ltr
  else
    scanDirection cc
      ((trimJs (stripMarkdownPrefixes textBlock.data)).dropWhile (isNeutralChar cc))

/-- `UiContainerSettings`: per-container direction choice. -/
structure UiContainerSettings where
  direction : DirectionSetting
deriving DecidableEq, Repr

/-- `IntelligentRtlSettings` of the main plugin file lines 31-52. -/
structure IntelligentRtlSettings where
  globalDefaultDirection : DirectionSetting
  editor : UiContainerSettings
  leftSidebar : UiContainerSettings
  rightSidebar : UiContainerSettings
  fileExplorer : UiContainerSettings
  searchResults : UiContainerSettings
  tagPane : UiContainerSettings
  canvasCard : UiContainerSettings
  enableAdvancedTextDetection : Bool
  mySetting : String
deriving DecidableEq, Repr

/-- `DEFAULT_SETTINGS` of the main plugin file lines 57-68. -/
def DEFAULT_SETTINGS : IntelligentRtlSettings :=
  { globalDefaultDirection := DirectionSetting.auto
    editor := { direction := DirectionSetting.auto }
    leftSidebar := { direction := DirectionSetting.ltr }
    rightSidebar := { direction := DirectionSetting.ltr }
    fileExplorer := { direction := DirectionSetting.ltr }
    searchResults := { direction := DirectionSetting.auto }
    tagPane := { direction := DirectionSetting.auto }
    canvasCard := { direction := DirectionSetting.auto }
    enableAdvancedTextDetection := true
    mySetting := "default" }

/-- The direction computation of `refreshActiveEditorDirection` line 298:
`this.activeNoteOverride || this.settings.editor.direction`.  The three possible
override values are the non-empty strings `ltr`, `rtl`, `auto`, all truthy, so
the JS `||` yields the override exactly when it is non-null. -/
def directionToApply (override : Option DirectionSetting)
    (settings : IntelligentRtlSettings) : DirectionSetting :=
  match override with
  | some d => d
  | none => settings.editor.direction

/-- The `userDirectionForThisEditor` computation of `handleEditorMutationInner`
lines 198-201: start from `settings.editor.direction` and replace it with the
override when the override is non-null. -/
def userDirectionForEditor (settings : IntelligentRtlSettings)
    (override : Option DirectionSetting) : DirectionSetting :=
  match override with
  | some d => d
  | none => settings.editor.direction

/-- The effective-direction computation of `applyDirectionToElement` lines
460-481, projected onto the value stored in `data-effective-direction` (equally
the `X-mode` class added): a concrete setting is stored as-is; `auto` is resolved
through the classifier when detection is enabled, and otherwise through the
global default with `ltr` as the terminal fallback. -/
def applyDirectionToElement (settings : IntelligentRtlSettings)
    (direction : DirectionSetting) (textContent : String) : DirectionSetting :=
  if direction = DirectionSetting.auto then
    if settings.enableAdvancedTextDetection then
      dirToSetting (getBlockDirection jsCharClasses textContent)
    else
      if settings.globalDefaultDirection = DirectionSetting.auto then
        DirectionSetting.ltr
      else settings.globalDefaultDirection
  else direction

/-- The write performed by `handleEditorMutationInner` lines 203-211, projected
onto the value stored in `data-effective-direction`: when the resolved user
direction is `auto` and detection is enabled, the classifier output is written
(`none` models the branch writing nothing). -/
def handleEditorMutationWrite (settings : IntelligentRtlSettings)
    (override : Option DirectionSetting) (textContent : String) :
    Option DirectionSetting :=
  if userDirectionForEditor settings override = DirectionSetting.auto ∧
     settings.enableAdvancedTextDetection then
    some (dirToSetting (getBlockDirection jsCharClasses textContent))
  else none

/-- The status-bar click handler of `onload` lines 119-124: `nextDirection`
starts at `ltr` (the value used from the `none` state) and is replaced according
to the current override. -/
def cycleOverride : Option DirectionSetting → Option DirectionSetting
  | some DirectionSetting.ltr => some DirectionSetting.rtl
  | some DirectionSetting.rtl => some DirectionSetting.auto
  | some DirectionSetting.auto => none
  | none => some DirectionSetting.ltr

/-- A frontmatter field value as seen at runtime (the TS cast
`as DirectionSetting | undefined` has no runtime effect). -/
inductive JsVal where
  | str (s : String)
  | num (n : Int)
  | boolean (b : Bool)
  | null
deriving DecidableEq, Repr

/-- The string corresponding to a `DirectionSetting` member. -/
def settingString : DirectionSetting → String
  | DirectionSetting.ltr => "ltr"
  | DirectionSetting.rtl => "rtl"
  | DirectionSetting.auto => "auto"

/-- An open file as consumed by `handleFileOpen`: its extension, and the outcome
of looking up `frontmatter.direction` through the metadata cache — `Except.error`
models the lookup throwing (the `catch` branch of lines 250-253), `Except.ok
none` an absent frontmatter or absent `direction` key, `Except.ok (some v)` a
present value. -/
structure OpenFile where
  extension : String
  fmDirection : Except String (Option JsVal)
deriving Repr

/-- The override computation of `handleFileOpen` lines 240-253: for a markdown
file whose frontmatter `direction` value is truthy and is one of the strings
`ltr`, `rtl`, `auto`, the override becomes that value; every other case —
no file, non-markdown file, absent frontmatter or key, any other value, or a
throwing read — yields `null`. -/
def handleFileOpenOverride : Option OpenFile → Option DirectionSetting
  | none => none
  | some f =>
    if f.extension = "md" then
      match f.fmDirection with
      | Except.error _ => none
      | Except.ok none => none
      | Except.ok (some v) =>
        match v with
        | JsVal.str s =>
          if s = "ltr" then some DirectionSetting.ltr
          else if s = "rtl" then some DirectionSetting.rtl
          else if s = "auto" then some DirectionSetting.auto
          else none
        | _ => none
    else none

/-- The debounce delay passed at `onload` line 89. -/
def EDITOR_DEBOUNCE_DELAY : Nat := 500

/-- Event-order semantics of `debounce` (main plugin file lines 163-169) run
against a timeline of call events `(time, args)` in delivery order.  A pending
invocation scheduled for `fireTime` fires iff the next call arrives strictly
after `fireTime` (a call at or before the due time reaches `clearTimeout` first
and cancels it); every call schedules the wrapped function with its own
arguments at `time + delay`.  The result lists the invocations of the wrapped
function as `(fireTime, args)` pairs. -/
def runDebounce (delay : Nat) : List (Nat × Nat) → Option (Nat × Nat) → List (Nat × Nat)
  | [], none => []
  | [], some p => [p]
  | (t, a) :: rest, none => runDebounce delay rest (some (t + delay, a))
  | (t, a) :: rest, some (ft, pa) =>
    if ft < t then (ft, pa) :: runDebounce delay rest (some (t + delay, a))
    else runDebounce delay rest (some (t + delay, a))

/-- Consecutive events each arrive within `w` time units of the previous one. -/
def withinGaps (w : Nat) : List (Nat × Nat) → Bool
  | (t1, _) :: (t2, a2) :: rest => decide (t2 ≤ t1 + w) && withinGaps w ((t2, a2) :: rest)
  | _ => true

/-- Consecutive events are each spaced strictly further apart than `w`. -/
def spacedGaps (w : Nat) : List (Nat × Nat) → Bool
  | (t1, _) :: (t2, a2) :: rest => decide (t1 + w < t2) && spacedGaps w ((t2, a2) :: rest)
  | _ => true

/-- One live editor content element (`.cm-content`) as seen by
`applyAllUiSettings`: its identity, whether `document.body.contains` it, and
whether it is the editor of the leaf showing the active file. -/
structure EditorElem where
  id : Nat
  inBody : Bool
  isActiveFileEditor : Bool
deriving DecidableEq, Repr

/-- The per-leaf direction computation of `applyAllUiSettings` lines 343-347:
`settings.editor.direction`, replaced by the override when this leaf shows the
active file and the override is non-null. -/
def resolveEditorLeafDirection (settings : IntelligentRtlSettings)
    (override : Option DirectionSetting) (e : EditorElem) : DirectionSetting :=
  match override with
  | some o => if e.isActiveFileEditor then o else settings.editor.direction
  | none => settings.editor.direction

/-- `manageObserver` lines 410-428, projected onto the observed set: when
`shouldObserve` holds and the element is not yet in the set it is observed and
added; when `shouldObserve` fails nothing happens (the code comments that
`cleanupOldObservers` will remove it). -/
def manageObserver (shouldObserve : Bool) (observedSet : List Nat) (id : Nat) :
    List Nat :=
  if shouldObserve ∧ ¬ id ∈ observedSet then observedSet ++ [id] else observedSet

/-- `cleanupOldObservers` lines 430-448, projected onto the observed set: keep
exactly the previously observed elements that are still in the DOM and belong to
the freshly enumerated current set. -/
def cleanupOldObservers (observedSet : List Nat) (editors : List EditorElem) :
    List Nat :=
  observedSet.filter (fun i =>
    match editors.find? (fun e => e.id = i) with
    | some e => e.inBody
    | none => false)

/-- The editor-observer bookkeeping of a full `applyAllUiSettings` pass (lines
337-373): for every markdown leaf, resolve its direction and run
`manageObserver` with `shouldObserve = (dir == 'auto' && detection)`, collecting
all enumerated editor elements as the current set; then run
`cleanupOldObservers` against that current set. -/
def applyAllUiSettings (settings : IntelligentRtlSettings)
    (override : Option DirectionSetting) (editors : List EditorElem)
    (observedSet : List Nat) : List Nat :=
  let obs1 := editors.foldl
    (fun obs e =>
      let dir := resolveEditorLeafDirection settings override e
      manageObserver
        (decide (dir = DirectionSetting.auto) && settings.enableAdvancedTextDetection)
        obs e.id)
    observedSet
  cleanupOldObservers obs1 editors

theorem hasPrefixL_le (p : List Char) :
    ∀ s : List Char, hasPrefixL p s = true → p.length ≤ s.length := by
  induction p with
  | nil => intro s _; simp
  | cons a ps ih =>
    intro s h
    cases s with
    | nil => exact absurd h (by simp [hasPrefixL])
    | cons b t =>
      simp only [hasPrefixL, Bool.and_eq_true] at h
      have := ih t h.2
      simp only [List.length_cons]
      omega

theorem hasInfixL_le (p : List Char) :
    ∀ s : List Char, hasInfixL p s = true → p.length ≤ s.length := by
  intro s
  induction s with
  | nil =>
    intro h
    simp only [hasInfixL, List.isEmpty_iff] at h
    simp [h]
  | cons c t ih =>
    intro h
    simp only [hasInfixL, Bool.or_eq_true] at h
    rcases h with h | h
    · exact hasPrefixL_le p (c :: t) h
    · have := ih h
      simp only [List.length_cons]
      omega

theorem isRtlChar_false (s : List Char) : isRtlChar s = false := by
  rcases s with _ | ⟨c, t⟩
  · rfl
  · rcases t with _ | ⟨d, u⟩
    · have hany : RTL_RANGES.any (fun range => hasInfixL range [c]) = false := by
        rw [List.any_eq_false]
        intro r hr hcontra
        have hlen : r.length = 3 := by
          simp only [RTL_RANGES, List.mem_cons, List.not_mem_nil, or_false] at hr
          rcases hr with rfl | rfl | rfl | rfl | rfl | rfl <;> rfl
        have := hasInfixL_le r [c] hcontra
        rw [hlen] at this
        simp at this
      show (decide (([c] : List Char).length = 1) &&
        RTL_RANGES.any (fun range => hasInfixL range [c])) = false
      rw [hany, Bool.and_false]
    · have h : (c :: d :: u).length ≠ 1 := by simp
      simp [isRtlChar, h]

theorem firstStrong_eq_ltr (l : List Char) (d : Dir) (h : firstStrong l = some d) :
    d = Dir.ltr := by
  induction l with
  | nil => exact absurd h (by simp [firstStrong])
  | cons c rest ih =>
    rw [show firstStrong (c :: rest) =
          if isRtlChar [c] then some Dir.rtl
          else if isBasicLatinLetter c then some Dir.ltr
          else firstStrong rest from rfl] at h
    rw [isRtlChar_false] at h
    simp only [Bool.false_eq_true, if_false] at h
    split at h
    · exact (Option.some.inj h).symm
    · exact ih h

theorem filter_isRtl_nil (l : List Char) : l.filter (fun c => isRtlChar [c]) = [] := by
  induction l with
  | nil => rfl
  | cons c rest ih => simp [List.filter_cons, isRtlChar_false, ih]

theorem scanDirection_ltr (cc : CharClasses) (l : List Char) :
    scanDirection cc l = Dir.ltr := by
  unfold scanDirection
  split
  · rfl
  · split
    · rename_i d hd
      exact firstStrong_eq_ltr _ d hd
    · rw [filter_isRtl_nil]
      simp

/-- C1: the spec requires `getBlockDirection "# שלום עולם" = rtl` (heading
stripped, first letter Hebrew), but the code evaluates to `ltr` on that exact
input: the bracketless `RTL_RANGES` regexes make `isRtlChar` reject every
character, so neither the first-strong scan nor the majority vote can ever
answer `rtl`. -/
theorem c1_hebrew_heading_classified_ltr :
    getBlockDirection jsCharClasses ("# שלום עולם") = Dir.ltr := by decide

/-- C2: `isRtlChar` returns `false` on every string — each `RTL_RANGES` regex
is a literal three-character pattern which cannot occur inside a string of
length one — and consequently `getBlockDirection` returns `ltr` on every input,
for every instantiation of the Unicode category tables: neither the
first-strong path nor the majority-vote fallback can produce `rtl`. -/
theorem c2_detector_always_ltr :
    (∀ s : List Char, isRtlChar s = false) ∧
    (∀ (cc : CharClasses) (t : String), getBlockDirection cc t = Dir.ltr) := by
  refine ⟨isRtlChar_false, ?_⟩
  intro cc t
  unfold getBlockDirection
  split
  · rfl
  · split
    · rfl
    · exact scanDirection_ltr cc _

/-- Settings after the user changes the editor direction from `auto` to the
concrete value `ltr`, with advanced text detection left enabled. -/
def c3Settings : IntelligentRtlSettings :=
  { DEFAULT_SETTINGS with editor := { direction := DirectionSetting.ltr } }

/-- C3: evaluation of the code at the failing configuration.  One live editor
element (id 0, in the DOM, showing the active file) was observed while the
editor setting was `auto`; after the setting changes to the concrete `ltr`
(detection still enabled) a full `applyAllUiSettings` pass resolves the editor
to `ltr`, yet the element is still in the observed set afterwards, because
`cleanupOldObservers` keeps every still-live enumerated editor regardless of its
resolved setting — contrary to the spec invariant and to `manageObserver`'s own
comment that cleanup removes no-longer-qualifying elements. -/
theorem c3_concrete_editor_stays_observed :
    resolveEditorLeafDirection c3Settings none
        { id := 0, inBody := true, isActiveFileEditor := true } = DirectionSetting.ltr ∧
    c3Settings.enableAdvancedTextDetection = true ∧
    applyAllUiSettings c3Settings none
        [{ id := 0, inBody := true, isActiveFileEditor := true }] [0] = [0] := by
  refine ⟨rfl, rfl, ?_⟩
  decide

/-- C4 counterexample: on the input `- [ ] * test`, which begins with a
task-list marker immediately followed by a bullet-list marker, the stripping
step removes both markers — the result is `test`, not the `* test` the claim
requires. -/
theorem c4_counterexample_double_strip :
    stripMarkdownPrefixes (("- [ ] * test").data) = ("test").data ∧
    stripMarkdownPrefixes (("- [ ] * test").data) ≠ ("* test").data := by
  constructor <;> decide

/-- C4 amended: the five prefix patterns are each applied once, in the order
task-list, bullet-list, ordered-list, heading, blockquote, but each applies to
the result of the previous application, so consecutive markers are stripped in
sequence: an input consisting of a task-list marker, then a bullet-list marker,
then text whose first character is not whitespace, a digit, `#` or `>` loses
both markers before scanning begins. -/
theorem c4_amended_sequential_strips (c : Char) (rest : List Char)
    (h1 : jsWhitespace c = false) (h2 : isJsDigit c = false)
    (h3 : c ≠ '#') (h4 : c ≠ '>') :
    stripMarkdownPrefixes
        ('-' :: ' ' :: '[' :: ' ' :: ']' :: ' ' :: '*' :: ' ' :: c :: rest) =
      c :: rest := by
  have hTask : stripTask ('-' :: ' ' :: '[' :: ' ' :: ']' :: ' ' :: '*' :: ' ' :: c :: rest) =
      '*' :: ' ' :: c :: rest := rfl
  have hb : bulletMatch ('*' :: ' ' :: c :: rest) =
      some ((c :: rest).dropWhile jsWhitespace) := rfl
  have hBullet : stripBullet ('*' :: ' ' :: c :: rest) = c :: rest := by
    rw [stripBullet, hb, Option.getD_some, List.dropWhile_cons, h1]
    simp
  have ho : orderedMatch (c :: rest) = none := by
    simp [orderedMatch, List.dropWhile_cons, List.takeWhile_cons, h1, h2]
  have hOrdered : stripOrdered (c :: rest) = c :: rest := by
    rw [stripOrdered, ho]
    rfl
  have hh : headingMatch (c :: rest) = none := by
    simp [headingMatch, List.dropWhile_cons, List.takeWhile_cons, h1, h3]
  have hHeading : stripHeading (c :: rest) = c :: rest := by
    rw [stripHeading, hh]
    rfl
  have hq : blockquoteMatch (c :: rest) = none := by
    simp [blockquoteMatch, List.dropWhile_cons, List.takeWhile_cons, h1, h4]
  have hBlockquote : stripBlockquote (c :: rest) = c :: rest := by
    rw [stripBlockquote, hq]
    rfl
  show stripBlockquote (stripHeading (stripOrdered (stripBullet (stripTask
    ('-' :: ' ' :: '[' :: ' ' :: ']' :: ' ' :: '*' :: ' ' :: c :: rest))))) = c :: rest
  rw [hTask, hBullet, hOrdered, hHeading, hBlockquote]

/-- C4 amended, witnessed at the concrete input `- [ ] * test`. -/
theorem c4_amended_sequential_strips_witness :
    jsWhitespace 't' = false ∧ isJsDigit 't' = false ∧ 't' ≠ '#' ∧ 't' ≠ '>' ∧
    stripMarkdownPrefixes
        ('-' :: ' ' :: '[' :: ' ' :: ']' :: ' ' :: '*' :: ' ' :: 't' :: ("est").data) =
      't' :: ("est").data :=
  ⟨by decide, by decide, by decide, by decide,
   c4_amended_sequential_strips 't' (("est").data)
     (by decide) (by decide) (by decide) (by decide)⟩

/-- C5: for the primary-editor region a non-null override always wins — both the
`refreshActiveEditorDirection` computation and the `handleEditorMutationInner`
computation yield the override itself, for every possible settings content. -/
theorem c5_override_wins (d : DirectionSetting) (s : IntelligentRtlSettings) :
    directionToApply (some d) s = d ∧ userDirectionForEditor s (some d) = d :=
  ⟨rfl, rfl⟩

/-- C6: when an `auto` setting is applied with detection disabled, the effective
direction is the global default, except that a global default of `auto` resolves
to `ltr`; with detection enabled the classifier is invoked on the region's text
instead. -/
theorem c6_auto_resolution (s : IntelligentRtlSettings) (t : String) :
    (s.enableAdvancedTextDetection = false →
       applyDirectionToElement s DirectionSetting.auto t =
         (if s.globalDefaultDirection = DirectionSetting.auto then DirectionSetting.ltr
          else s.globalDefaultDirection)) ∧
    (s.enableAdvancedTextDetection = true →
       applyDirectionToElement s DirectionSetting.auto t =
         dirToSetting (getBlockDirection jsCharClasses t)) := by
  constructor <;> intro h <;> simp [applyDirectionToElement, h]

/-- Settings with detection disabled and a concrete global default. -/
def c6SettingsOff : IntelligentRtlSettings :=
  { DEFAULT_SETTINGS with globalDefaultDirection := DirectionSetting.rtl,
                          enableAdvancedTextDetection := false }

/-- Settings with detection disabled and the global default left at `auto`. -/
def c6SettingsOffAuto : IntelligentRtlSettings :=
  { DEFAULT_SETTINGS with enableAdvancedTextDetection := false }

/-- C6 witnessed at concrete settings: global default `rtl` is used when
detection is off, a global default of `auto` falls back to `ltr`, and with
detection on the classifier output is used. -/
theorem c6_auto_resolution_witness :
    applyDirectionToElement c6SettingsOff DirectionSetting.auto ("") = DirectionSetting.rtl ∧
    applyDirectionToElement c6SettingsOffAuto DirectionSetting.auto ("") = DirectionSetting.ltr ∧
    applyDirectionToElement DEFAULT_SETTINGS DirectionSetting.auto ("abc") = DirectionSetting.ltr := by
  refine ⟨?_, ?_, ?_⟩
  · exact ((c6_auto_resolution c6SettingsOff ("")).1 rfl).trans (by decide)
  · exact ((c6_auto_resolution c6SettingsOffAuto ("")).1 rfl).trans (by decide)
  · exact ((c6_auto_resolution DEFAULT_SETTINGS ("abc")).2 rfl).trans (by decide)

/-- C7: the status-bar cycle visits `ltr`, `rtl`, `auto`, `none` in order from
`none`, and applying it four times from any of the four states is the
identity. -/
theorem c7_cycle_law :
    cycleOverride none = some DirectionSetting.ltr ∧
    cycleOverride (some DirectionSetting.ltr) = some DirectionSetting.rtl ∧
    cycleOverride (some DirectionSetting.rtl) = some DirectionSetting.auto ∧
    cycleOverride (some DirectionSetting.auto) = none ∧
    ∀ o : Option DirectionSetting,
      cycleOverride (cycleOverride (cycleOverride (cycleOverride o))) = o := by
  refine ⟨rfl, rfl, rfl, rfl, ?_⟩
  intro o
  rcases o with _ | d
  · rfl
  · cases d <;> rfl

theorem runDebounce_coalesce (w : Nat) :
    ∀ (rest : List (Nat × Nat)) (t a : Nat), withinGaps w ((t, a) :: rest) = true →
      runDebounce w rest (some (t + w, a)) =
        [((rest.getLastD (t, a)).1 + w, (rest.getLastD (t, a)).2)] := by
  intro rest
  induction rest with
  | nil => intro t a _; rfl
  | cons p rest ih =>
    intro t a h
    obtain ⟨t2, a2⟩ := p
    simp only [withinGaps, Bool.and_eq_true, decide_eq_true_eq] at h
    rw [runDebounce, if_neg (by omega), ih t2 a2 h.2, List.getLastD_cons]

theorem runDebounce_spaced (w : Nat) :
    ∀ (rest : List (Nat × Nat)) (t a : Nat), spacedGaps w ((t, a) :: rest) = true →
      runDebounce w rest (some (t + w, a)) =
        (t + w, a) :: rest.map (fun e => (e.1 + w, e.2)) := by
  intro rest
  induction rest with
  | nil => intro t a _; rfl
  | cons p rest ih =>
    intro t a h
    obtain ⟨t2, a2⟩ := p
    simp only [spacedGaps, Bool.and_eq_true, decide_eq_true_eq] at h
    rw [runDebounce, if_pos (by omega), ih t2 a2 h.2]
    simp

/-- C8: a non-empty burst of mutation notifications whose consecutive arrivals
each fall within the 500-unit quiescence window produces exactly one invocation,
carrying the last notification's arguments; notifications spaced strictly
further apart than the window each produce their own invocation, N in total. -/
theorem c8_debounce_coalescing (t : Nat) (a : Nat) (rest : List (Nat × Nat)) :
    (withinGaps EDITOR_DEBOUNCE_DELAY ((t, a) :: rest) = true →
       runDebounce EDITOR_DEBOUNCE_DELAY ((t, a) :: rest) none =
         [((rest.getLastD (t, a)).1 + EDITOR_DEBOUNCE_DELAY,
           (rest.getLastD (t, a)).2)]) ∧
    (spacedGaps EDITOR_DEBOUNCE_DELAY ((t, a) :: rest) = true →
       runDebounce EDITOR_DEBOUNCE_DELAY ((t, a) :: rest) none =
         ((t, a) :: rest).map (fun e => (e.1 + EDITOR_DEBOUNCE_DELAY, e.2))) := by
  constructor
  · intro h
    rw [runDebounce]
    exact runDebounce_coalesce EDITOR_DEBOUNCE_DELAY rest t a h
  · intro h
    rw [runDebounce]
    simpa using runDebounce_spaced EDITOR_DEBOUNCE_DELAY rest t a h

/-- C8 witnessed on concrete timelines: three calls 100 units apart collapse to
one invocation with the last arguments; two calls 600 units apart produce two
invocations. -/
theorem c8_debounce_coalescing_witness :
    runDebounce 500 [(0, 1), (100, 2), (200, 3)] none = [(700, 3)] ∧
    runDebounce 500 [(0, 1), (600, 2)] none = [(500, 1), (1100, 2)] := by
  constructor
  · exact ((c8_debounce_coalescing 0 1 [(100, 2), (200, 3)]).1 (by decide)).trans (by decide)
  · exact ((c8_debounce_coalescing 0 1 [(600, 2)]).2 (by decide)).trans (by decide)

/-- C9: for a markdown file whose frontmatter `direction` value is one of the
strings `ltr`, `rtl`, `auto`, that value becomes the override; a throwing read,
an absent frontmatter or key, any other stored value, and the no-file case all
resolve to `none`, and the computation is total — no error escapes. -/
theorem c9_frontmatter_override (f : OpenFile) :
    (∀ d : DirectionSetting, f.extension = "md" →
       f.fmDirection = Except.ok (some (JsVal.str (settingString d))) →
       handleFileOpenOverride (some f) = some d) ∧
    (∀ e : String, f.fmDirection = Except.error e →
       handleFileOpenOverride (some f) = none) ∧
    (f.fmDirection = Except.ok none → handleFileOpenOverride (some f) = none) ∧
    (∀ v : JsVal, f.fmDirection = Except.ok (some v) →
       (∀ d : DirectionSetting, v ≠ JsVal.str (settingString d)) →
       handleFileOpenOverride (some f) = none) ∧
    handleFileOpenOverride none = none := by
  refine ⟨?_, ?_, ?_, ?_, rfl⟩
  · intro d hext hfm
    cases d <;> simp [handleFileOpenOverride, hext, hfm, settingString]
  · intro e hfm
    by_cases hext : f.extension = "md" <;> simp [handleFileOpenOverride, hext, hfm]
  · intro hfm
    by_cases hext : f.extension = "md" <;> simp [handleFileOpenOverride, hext, hfm]
  · intro v hfm hv
    by_cases hext : f.extension = "md"
    · rcases v with s | n | b | _
      · have h1 : s ≠ "ltr" := by
          intro hs
          exact hv DirectionSetting.ltr (by rw [hs]; rfl)
        have h2 : s ≠ "rtl" := by
          intro hs
          exact hv DirectionSetting.rtl (by rw [hs]; rfl)
        have h3 : s ≠ "auto" := by
          intro hs
          exact hv DirectionSetting.auto (by rw [hs]; rfl)
        simp [handleFileOpenOverride, hext, hfm, h1, h2, h3]
      · simp [handleFileOpenOverride, hext, hfm]
      · simp [handleFileOpenOverride, hext, hfm]
      · simp [handleFileOpenOverride, hext, hfm]
    · simp [handleFileOpenOverride, hext, hfm]

/-- C9 witnessed at concrete files: a valid `rtl` value becomes the override; a
throwing read, an absent value and a non-string value all resolve to `none`. -/
theorem c9_frontmatter_override_witness :
    handleFileOpenOverride
        (some { extension := "md",
                fmDirection := Except.ok (some (JsVal.str ("rtl"))) }) =
      some DirectionSetting.rtl ∧
    handleFileOpenOverride
        (some { extension := "md", fmDirection := Except.error ("boom") }) = none ∧
    handleFileOpenOverride
        (some { extension := "md", fmDirection := Except.ok none }) = none ∧
    handleFileOpenOverride
        (some { extension := "md", fmDirection := Except.ok (some (JsVal.num 3)) }) = none := by
  refine ⟨(c9_frontmatter_override _).1 DirectionSetting.rtl rfl rfl,
          (c9_frontmatter_override _).2.1 ("boom") rfl,
          (c9_frontmatter_override _).2.2.1 rfl,
          (c9_frontmatter_override _).2.2.2.1 (JsVal.num 3) rfl ?_⟩
  intro d
  cases d <;> simp [settingString]

/-- C10: every value written as an effective direction is concrete —
`applyDirectionToElement` never stores `auto` (for any settings, raw setting and
text), and the mutation handler's write is the classifier output, never
`auto`. -/
theorem c10_effective_never_auto :
    (∀ (s : IntelligentRtlSettings) (d : DirectionSetting) (t : String),
       applyDirectionToElement s d t ≠ DirectionSetting.auto) ∧
    (∀ (s : IntelligentRtlSettings) (o : Option DirectionSetting) (t : String),
       handleEditorMutationWrite s o t ≠ some DirectionSetting.auto) := by
  constructor
  · intro s d t
    unfold applyDirectionToElement
    split
    · split
      · cases getBlockDirection jsCharClasses t <;> simp [dirToSetting]
      · split
        · simp
        · rename_i hglob
          exact hglob
    · rename_i hd
      exact hd
  · intro s o t
    unfold handleEditorMutationWrite
    split
    · cases getBlockDirection jsCharClasses t <;> simp [dirToSetting]
    · simp
